import Mathlib

/-!
Verification of the IVM rigid-body node recursion (RigidBodyNode.cpp) and the
LAPACK dispatch layer of the Simbody repository against its natural-language
specification.  Scalars are modelled as exact rationals (reals where the source
uses trigonometric functions or square roots); spatial 6-vectors and 6x6
matrices use the index type `Fin 3 ⊕ Fin 3` so that the source's 2x2-block
structure maps onto `Matrix.fromBlocks`.
-/

namespace Simbody

open Matrix

/-- Spatial index: `inl` is the angular block, `inr` the linear block. -/
abbrev Six := Fin 3 ⊕ Fin 3

abbrev CDSVec3 := Fin 3 → ℚ
abbrev CDSVec6 := Six → ℚ
abbrev CDSMat33 := Matrix (Fin 3) (Fin 3) ℚ
abbrev CDSMat66 := Matrix Six Six ℚ

/-- Modelled from the spec: the cross-product matrix (cdsMath, not under src/);
spec section 4.1 requires the antisymmetric 3x3 matrix of a Vec3, so that
`crossMat v *ᵥ w = v × w`. -/
def crossMat (v : CDSVec3) : CDSMat33 :=
  Matrix.of ![![0, -v 2, v 1], ![v 2, 0, -v 0], ![-v 1, v 0, 0]]

/-- Modelled from the spec: the shift operator Φ(r) (phiMatrix.hh, not under
src/); spec section 4.1: `Φ · F_child` shifts a spatial force from child to
parent, the moment picking up `r × f`, and `Φᵀ · V_parent` shifts a velocity,
the linear part picking up `ω × r`.  As a block matrix this is
`[[1, skew r], [0, 1]]`. -/
def PhiMatrix (r : CDSVec3) : CDSMat66 :=
  Matrix.fromBlocks 1 (crossMat r) 0 1

/-- Block 2x2 assembly of a spatial matrix, as in the source's blockMat22. -/
def blockMat22 (a b c d : CDSMat33) : CDSMat66 :=
  Matrix.fromBlocks a b c d

/-- Block assembly of a spatial vector from angular and linear parts. -/
def blockVec (w v : CDSVec3) : CDSVec6 :=
  Sum.elim w v

/-- Source `orthoTransform(M, R) = R · M · Rᵀ` (matrixTools; spec section
4.1). -/
def orthoTransform {m n : Type*} [Fintype n] (M : Matrix n n ℚ) (R : Matrix m n ℚ) :
    Matrix m m ℚ :=
  R * M * R.transpose

section ArticulatedBodyDefs

/-- Per-child data read by calcZ: the child's Φ, residual z and Gε, already
computed because calcZ runs tip to base. -/
structure ChildZ where
  phi : CDSMat66
  z : CDSVec6
  Gepsilon : CDSVec6

/-- RigidBodyNodeSpec<dof>::calcZ (RigidBodyNode.cpp lines 933-944): starts
from `z = P*a + b - spatialForce`, loops over the children adding
`phi_c * (z_c + Gepsilon_c)`, then sets `epsilon = forceInternal - H*z`,
`nu = DI*epsilon`, `Gepsilon = G*epsilon`.  Returns (z, epsilon, nu,
Gepsilon). -/
def calcZ {dof : ℕ} (P : CDSMat66) (a b spatialForce : CDSVec6)
    (H : Matrix (Fin dof) Six ℚ) (DI : Matrix (Fin dof) (Fin dof) ℚ)
    (G : Matrix Six (Fin dof) ℚ) (forceInternal : Fin dof → ℚ)
    (children : List ChildZ) :
    CDSVec6 × (Fin dof → ℚ) × (Fin dof → ℚ) × CDSVec6 :=
  let z := children.foldl (fun acc c => acc + c.phi.mulVec (c.z + c.Gepsilon))
    (P.mulVec a + b - spatialForce)
  let epsilon := forceInternal - H.mulVec z
  (z, epsilon, DI.mulVec epsilon, G.mulVec epsilon)

/-- The spec's closed-form residual
`z = P·a + b − f_spatial + Σ_children Φ_child·(z_child + G_child·ε_child)`
(the children supply their already-computed Gε = G·ε). -/
def zSpecFormula (P : CDSMat66) (a b spatialForce : CDSVec6)
    (children : List ChildZ) : CDSVec6 :=
  P.mulVec a + b - spatialForce
    + (children.map (fun c => c.phi.mulVec (c.z + c.Gepsilon))).sum

/-- RigidBodyNodeSpec<dof>::calcAccel (RigidBodyNode.cpp lines 951-961):
`alphap = phiᵀ * sAcc_parent`, `ddTheta = nu - Gᵀ * alphap`,
`sAcc = alphap + Hᵀ * ddTheta + a`.  Returns (ddTheta, sAcc). -/
def calcAccel {dof : ℕ} (phi : CDSMat66) (sAccParent : CDSVec6)
    (nu : Fin dof → ℚ) (G : Matrix Six (Fin dof) ℚ)
    (H : Matrix (Fin dof) Six ℚ) (a : CDSVec6) :
    (Fin dof → ℚ) × CDSVec6 :=
  let alphap := phi.transpose.mulVec sAccParent
  let ddTheta := nu - G.transpose.mulVec alphap
  (ddTheta, alphap + H.transpose.mulVec ddTheta + a)

/-- Modelled from the spec: the ground node's spatial acceleration.
RBGroundBody::calcAccel is a no-op and sAcc keeps its constructed value; the
constructor lives in RigidBodyNode.h, which is not under src/, and the spec
states that Ground's s_acc is zero. -/
def groundSAcc : CDSVec6 := 0

/-- The 3x4 quaternion-rate matrix M(q) as laid out in
ContainedBallJoint::setBallVel (RigidBodyNode.cpp lines 425-436), row major
`{-q1, q0, -q3, q2; -q2, q3, q0, -q1; -q3, -q2, q1, q0}`. -/
def ballM34 (q : Fin 4 → ℚ) : Matrix (Fin 3) (Fin 4) ℚ :=
  Matrix.of ![![-q 1, q 0, -q 3, q 2],
              ![-q 2, q 3, q 0, -q 1],
              ![-q 3, -q 2, q 1, q 0]]

/-- The 4x3 matrix laid out in ContainedBallJoint::calcBallAccel and
setBallDerivs (RigidBodyNode.cpp lines 443-459 and 524-532), row major
`{-q1, -q2, -q3; q0, q3, -q2; -q3, q0, q1; q2, -q1, q0}`. -/
def ballM43 (q : Fin 4 → ℚ) : Matrix (Fin 4) (Fin 3) ℚ :=
  Matrix.of ![![-q 1, -q 2, -q 3],
              ![q 0, q 3, -q 2],
              ![-q 3, q 0, q 1],
              ![q 2, -q 1, q 0]]

/-- ContainedBallJoint::calcBallAccel in quaternion mode (RigidBodyNode.cpp
lines 443-459): `ddq = 0.5*(dM*omega + M*dOmega)` with M built from q and dM
built from dq. -/
def calcBallAccel (q dq : Fin 4 → ℚ) (omega dOmega : Fin 3 → ℚ) : Fin 4 → ℚ :=
  (1/2 : ℚ) • ((ballM43 dq).mulVec omega + (ballM43 q).mulVec dOmega)

/-- ContainedBallJoint::setBallVel in quaternion mode maps dq to the angular
velocity `dTheta = 2 * M(q) * dq` (RigidBodyNode.cpp lines 425-436). -/
def setBallVelOmega (q dq : Fin 4 → ℚ) : Fin 3 → ℚ :=
  (2 : ℚ) • (ballM34 q).mulVec dq

/-- ContainedBallJoint::setBallDerivs: `dq = 0.5 * M * omega` with the 4x3 M
(RigidBodyNode.cpp lines 524-532). -/
def setBallDerivs (q : Fin 4 → ℚ) (omega : Fin 3 → ℚ) : Fin 4 → ℚ :=
  (1/2 : ℚ) • (ballM43 q).mulVec omega

/-- Squared euclidean norm of a quaternion. -/
def normSq4 (q : Fin 4 → ℚ) : ℚ :=
  q 0 * q 0 + q 1 * q 1 + q 2 * q 2 + q 3 * q 3

/-- Per-child data read by calcInternalForce: the child's Φ and its already
accumulated z. -/
structure ChildF where
  phi : CDSMat66
  z : CDSVec6

/-- The z accumulated by RigidBodyNodeSpec<dof>::calcInternalForce
(RigidBodyNode.cpp lines 976-984): `z = -spatialForce` then the loop adds
`phi_c * z_c` over the children. -/
def calcInternalForceZ (spatialForce : CDSVec6) (children : List ChildF) : CDSVec6 :=
  children.foldl (fun acc c => acc + c.phi.mulVec c.z) (-spatialForce)

/-- RigidBodyNodeSpec<dof>::calcInternalForce: accumulates
`forceInternal += H * z` on top of the current accumulator. -/
def calcInternalForce {dof : ℕ} (H : Matrix (Fin dof) Six ℚ)
    (forceInternal : Fin dof → ℚ) (spatialForce : CDSVec6)
    (children : List ChildF) : Fin dof → ℚ :=
  forceInternal + H.mulVec (calcInternalForceZ spatialForce children)

/-- RigidBodyNodeSpec<dof>::setPos (RigidBodyNode.cpp lines 208-214) begins
with `forceInternal.set(0.)`; the joint and body kinematics routines it then
calls do not write forceInternal.  This is setPos's action on the internal
force accumulator. -/
def setPosForceInternal {dof : ℕ} (_prev : Fin dof → ℚ) : Fin dof → ℚ := 0

/-- Per-child data read by calcP: the child's ground-frame origin OB_G and its
already computed tau and articulated inertia P (tip-to-base order). -/
structure ChildP where
  OB_G : CDSVec3
  tau : CDSMat66
  P : CDSMat66

/-- One iteration of the child loop of RigidBodyNodeSpec<dof>::calcP
(RigidBodyNode.cpp lines 907-922): with `lt = crossMat(child.OB_G - OB_G)`
and `M = child.tau * child.P`, the four 3x3 sub-blocks of P are updated by
`p11 += m11 + lt*m21 - m12*lt - lt*m22*lt`, `p12 += m12 + lt*m22`,
`p21 += m21 - m22*lt`, `p22 += m22`. -/
def calcPStep (OB_G : CDSVec3) (P : CDSMat66) (c : ChildP) : CDSMat66 :=
  let lt := crossMat (c.OB_G - OB_G)
  let M := c.tau * c.P
  Matrix.fromBlocks
    (P.toBlocks₁₁ + (M.toBlocks₁₁ + lt * M.toBlocks₂₁ - M.toBlocks₁₂ * lt
      - lt * M.toBlocks₂₂ * lt))
    (P.toBlocks₁₂ + (M.toBlocks₁₂ + lt * M.toBlocks₂₂))
    (P.toBlocks₂₁ + (M.toBlocks₂₁ - M.toBlocks₂₂ * lt))
    (P.toBlocks₂₂ + M.toBlocks₂₂)

/-- The articulated-inertia accumulation of RigidBodyNodeSpec<dof>::calcP
(RigidBodyNode.cpp lines 894-922): starts from `P = Mk` and runs the
block-wise child update for each child. -/
def calcP (OB_G : CDSVec3) (Mk : CDSMat66) (children : List ChildP) : CDSMat66 :=
  children.foldl (calcPStep OB_G) Mk

/-- The spec's closed form
`P = M_k + Σ_children Φ_child·(τ_child·P_child)·Φ_childᵀ` with
`Φ_child = Φ(O_child_G − O_B_G)`. -/
def calcPSpecFormula (OB_G : CDSVec3) (Mk : CDSMat66) (children : List ChildP) :
    CDSMat66 :=
  Mk + (children.map (fun c =>
    PhiMatrix (c.OB_G - OB_G) * (c.tau * c.P)
      * (PhiMatrix (c.OB_G - OB_G)).transpose)).sum

/-- Diagnostics carried by the singular-configuration failure of calcD_G:
the offending node's level and its H matrix (RigidBodyNode.cpp lines
878-884 report exactly these). -/
structure SingularDiag (dof : ℕ) where
  level : ℕ
  H : Matrix (Fin dof) Six ℚ

/-- Explicit inverse of a square rational matrix through the adjugate; over a
field this coincides with Matrix.inv whenever it is meaningful. -/
def nonsingInverse {n : Type*} [Fintype n] [DecidableEq n]
    (D : Matrix n n ℚ) : Matrix n n ℚ :=
  (D.det)⁻¹ • D.adjugate

/-- RigidBodyNodeSpec<dof>::calcD_G (RigidBodyNode.cpp lines 871-887):
`D = orthoTransform(P, H) = H*P*Hᵀ`; `DI = inverse(D)`, where
MatrixTools::inverse (not under src/) is modelled from the spec as raising
SingularError exactly when D is not invertible, i.e. when det D = 0 over the
exact scalars; on failure the node's level and H are reported and the
SingularConfiguration failure is raised; on success `G = P*Hᵀ*DI`. -/
def calcD_G {dof : ℕ} (level : ℕ) (H : Matrix (Fin dof) Six ℚ) (P : CDSMat66) :
    Except (SingularDiag dof)
      (Matrix (Fin dof) (Fin dof) ℚ × Matrix Six (Fin dof) ℚ) :=
  let D := orthoTransform P H
  if D.det = 0 then .error ⟨level, H⟩
  else .ok (nonsingInverse D, P * H.transpose * nonsingInverse D)

/-- The tail of RigidBodyNodeSpec<dof>::calcP after the child loop
(RigidBodyNode.cpp lines 924-927): calls calcD_G, then sets
`tau = 1 - G*H` and `psiT = tauᵀ * phiᵀ`.  Returns (DI, G, tau, psiT). -/
def calcPTail {dof : ℕ} (level : ℕ) (phi : CDSMat66)
    (H : Matrix (Fin dof) Six ℚ) (P : CDSMat66) :
    Except (SingularDiag dof)
      (Matrix (Fin dof) (Fin dof) ℚ × Matrix Six (Fin dof) ℚ × CDSMat66 × CDSMat66) :=
  match calcD_G level H P with
  | .error e => .error e
  | .ok (DI, G) =>
      let tau := (1 : CDSMat66) - G * H
      .ok (DI, G, tau, tau.transpose * phi.transpose)

/-- Concrete one-dof H matrix used to exercise the nonsingular branch of
calcD_G: the single row selects the first angular coordinate. -/
def HJointC4 : Matrix (Fin 1) Six ℚ :=
  Matrix.of ![Sum.elim ![1, 0, 0] ![0, 0, 0]]

end ArticulatedBodyDefs

section FactoryDefs

/-- Joint type enumeration from RigidBodyNode.h as used by the factory switch
in RigidBodyNode.cpp lines 830-853. -/
inductive JointType where
  | ThisIsGround
  | TorsionJoint
  | UJoint
  | OrientationJoint
  | CartesianJoint
  | FreeLineJoint
  | FreeJoint
  | SlidingJoint
  | CylinderJoint
  | PlanarJoint
  | GimbalJoint
  | WeldJoint
  deriving DecidableEq

/-- The node families the factory can construct, one per concrete
RigidBodyNode subclass; the ball-based families record the useEuler flag
passed to their constructor. -/
inductive NodeFamily where
  | groundBody
  | nodeTorsion
  | nodeRotate2
  | nodeRotate3 (useEuler : Bool)
  | nodeTranslate
  | nodeTranslateRotate2
  | nodeTranslateRotate3 (useEuler : Bool)
  deriving DecidableEq

/-- Precondition failures (C++ assert) surfaced as an error value. -/
inductive PreconditionViolated where
  | reversedJoint
  | unknownJointType
  deriving DecidableEq

/-- RigidBodyNode::create (RigidBodyNode.cpp lines 819-856): asserts
`!isReversed`, then dispatches on the joint type; the unsupported types
Sliding, Cylinder, Planar, Gimbal, Weld fall into the default branch with
`assert(false)`.  Mass properties and the joint frame are passed through to
the constructors unchanged and do not affect the dispatch, so they are
omitted here. -/
def RigidBodyNode.create (type : JointType) (isReversed useEuler : Bool) :
    Except PreconditionViolated NodeFamily :=
  if isReversed then .error .reversedJoint
  else
    match type with
    | .ThisIsGround     => .ok .groundBody
    | .TorsionJoint     => .ok .nodeTorsion
    | .UJoint           => .ok .nodeRotate2
    | .OrientationJoint => .ok (.nodeRotate3 useEuler)
    | .CartesianJoint   => .ok .nodeTranslate
    | .FreeLineJoint    => .ok .nodeTranslateRotate2
    | .FreeJoint        => .ok (.nodeTranslateRotate3 useEuler)
    | _                 => .error .unknownJointType

/-- The supported joint set named by the claim. -/
def supportedJoint (t : JointType) : Prop :=
  t = .ThisIsGround ∨ t = .TorsionJoint ∨ t = .UJoint ∨ t = .OrientationJoint ∨
    t = .CartesianJoint ∨ t = .FreeLineJoint ∨ t = .FreeJoint

instance (t : JointType) : Decidable (supportedJoint t) := by
  unfold supportedJoint; infer_instance

/-- The node family corresponding to each supported joint type. -/
def jointFamily (t : JointType) (useEuler : Bool) : Except PreconditionViolated NodeFamily :=
  match t with
  | .ThisIsGround     => .ok .groundBody
  | .TorsionJoint     => .ok .nodeTorsion
  | .UJoint           => .ok .nodeRotate2
  | .OrientationJoint => .ok (.nodeRotate3 useEuler)
  | .CartesianJoint   => .ok .nodeTranslate
  | .FreeLineJoint    => .ok .nodeTranslateRotate2
  | .FreeJoint        => .ok (.nodeTranslateRotate3 useEuler)
  | _                 => .error .unknownJointType

end FactoryDefs

section GesddDefs

/-- LapackInterface::gesdd for complex<float> (src/unnamed/part_001 lines
295-316), modelling the rwork allocation and the jobz character actually
passed to cgesdd_.  The source's condition reads `if( jobz = 'N' )`: a C++
assignment, which overwrites jobz with 'N' and yields the (nonzero, hence
true) value 'N', so the first branch is always taken.  Returns the rwork
size and the jobz value handed to the LAPACK routine. -/
def gesddComplexFloat (jobz : Char) (m n : ℕ) : ℕ × Char :=
  let mn := if m < n then m else n
  let jobz := 'N'
  let condValue := jobz
  let rworkSize := if condValue ≠ Char.ofNat 0 then 5 * mn else 5 * mn * mn + 7 * mn
  (rworkSize, jobz)

/-- LapackInterface::gesdd for complex<double> (src/unnamed/part_001 lines
318-339); textually the same body as the complex<float> wrapper, including
the `jobz = 'N'` assignment-in-condition. -/
def gesddComplexDouble (jobz : Char) (m n : ℕ) : ℕ × Char :=
  let mn := if m < n then m else n
  let jobz := 'N'
  let condValue := jobz
  let rworkSize := if condValue ≠ Char.ofNat 0 then 5 * mn else 5 * mn * mn + 7 * mn
  (rworkSize, jobz)

/-- The behaviour the spec says was intended: compare jobz with 'N', allocate
`5·mn` in that case and `5·mn² + 7·mn` otherwise, and invoke LAPACK with the
caller's jobz. -/
def gesddComplexIntended (jobz : Char) (m n : ℕ) : ℕ × Char :=
  let mn := if m < n then m else n
  let rworkSize := if jobz = 'N' then 5 * mn else 5 * mn * mn + 7 * mn
  (rworkSize, jobz)

end GesddDefs

section RealBallDefs

abbrev RVec4 := Fin 4 → ℝ

/-- Euclidean dot product on 4-vectors (source `dot` from cdsVector). -/
def dot4 (p q : RVec4) : ℝ :=
  ∑ i, p i * q i

/-- Euclidean norm on 4-vectors (source `norm` from cdsVector, not under
src/; modelled from the spec's |q|). -/
noncomputable def norm4 (q : RVec4) : ℝ :=
  Real.sqrt (dot4 q q)

/-- ContainedBallJoint::enforceBallConstraints in quaternion mode
(RigidBodyNode.cpp lines 496-507): `q /= norm(q)` then
`dq -= dot(q,dq)*q`, the dot taken with the already normalized q.  Returns
the rewritten (q, dq) slices. -/
noncomputable def enforceBallConstraints (q dq : RVec4) : RVec4 × RVec4 :=
  let qn := (norm4 q)⁻¹ • q
  (qn, dq - dot4 qn dq • qn)

/-- DEG2RAD from RigidBodyNode.cpp line 299: `PI / 180`. -/
noncomputable def DEG2RAD : ℝ :=
  Real.pi / 180

/-- ContainedBallJoint::calcR_PB in Euler mode (RigidBodyNode.cpp lines
467-483): theta = (Phi, Theta, Psi) body-three 3-2-1 Euler angles, each
multiplied by DEG2RAD before the trig functions; the matrix is Kane's
body-three 3-2-1 direction cosine matrix. -/
noncomputable def calcR_PB_euler (theta : Fin 3 → ℝ) : Matrix (Fin 3) (Fin 3) ℝ :=
  let cPhi := Real.cos (theta 0 * DEG2RAD)
  let sPhi := Real.sin (theta 0 * DEG2RAD)
  let cTheta := Real.cos (theta 1 * DEG2RAD)
  let sTheta := Real.sin (theta 1 * DEG2RAD)
  let cPsi := Real.cos (theta 2 * DEG2RAD)
  let sPsi := Real.sin (theta 2 * DEG2RAD)
  Matrix.of
    ![![cPhi * cTheta, -sPhi * cPsi + cPhi * sTheta * sPsi,
        sPhi * sPsi + cPhi * sTheta * cPsi],
      ![sPhi * cTheta, cPhi * cPsi + sPhi * sTheta * sPsi,
        -cPhi * sPsi + sPhi * sTheta * cPsi],
      ![-sTheta, cTheta * sPsi, cTheta * cPsi]]

end RealBallDefs

/-! Helper lemmas shared by several developments. -/

/-- Accumulating fold rewritten as initial value plus a sum; this is how the
source's `for` loops over children relate to the spec's Σ over children. -/
theorem foldl_add_eq_add_sum {α β : Type*} [AddCommMonoid β] (g : α → β) :
    ∀ (l : List α) (init : β),
      l.foldl (fun acc x => acc + g x) init = init + (l.map g).sum := by
  intro l
  induction l with
  | nil => intro init; simp
  | cons x xs ih => intro init; simp [ih, add_assoc]

/-- The source's 4x3 ball matrix is the transpose of its 3x4 ball matrix. -/
theorem ballM43_eq_transpose (q : Fin 4 → ℚ) : ballM43 q = (ballM34 q).transpose := by
  ext i j
  fin_cases i <;> fin_cases j <;>
    simp [ballM34, ballM43, Matrix.transpose_apply]

/-- The adjugate-based inverse agrees with Mathlib's matrix inverse over the
rationals. -/
theorem nonsingInverse_eq_inv {n : Type*} [Fintype n] [DecidableEq n]
    (D : Matrix n n ℚ) : nonsingInverse D = D⁻¹ := by
  rw [nonsingInverse, Matrix.inv_def, Ring.inverse_eq_inv']

/-- The quaternion self dot product is nonnegative. -/
theorem dot4_nonneg (q : RVec4) : 0 ≤ dot4 q q :=
  Finset.sum_nonneg fun i _ => mul_self_nonneg (q i)

/-- The quaternion self dot product of a nonzero vector is positive. -/
theorem dot4_pos_of_ne_zero (q : RVec4) (h : q ≠ 0) : 0 < dot4 q q := by
  rcases lt_or_eq_of_le (dot4_nonneg q) with h1 | h1
  · exact h1
  · exfalso
    apply h
    funext i
    have h2 := (Finset.sum_eq_zero_iff_of_nonneg
      (fun i _ => mul_self_nonneg (q i))).mp h1.symm
    exact mul_self_eq_zero.mp (h2 i (Finset.mem_univ i))

/-- Left scalar homogeneity of dot4. -/
theorem dot4_smul_left (a : ℝ) (q r : RVec4) : dot4 (a • q) r = a * dot4 q r := by
  simp [dot4, Finset.mul_sum, mul_assoc]

/-- Right scalar homogeneity of dot4. -/
theorem dot4_smul_right (a : ℝ) (q r : RVec4) : dot4 q (a • r) = a * dot4 q r := by
  simp [dot4, Finset.mul_sum, mul_left_comm]

/-- Right additivity of dot4 over subtraction. -/
theorem dot4_sub_right (q r s : RVec4) : dot4 q (r - s) = dot4 q r - dot4 q s := by
  simp [dot4, mul_sub, Finset.sum_sub_distrib]

/-- The cross-product matrix is antisymmetric. -/
theorem crossMat_transpose (v : CDSVec3) : (crossMat v).transpose = -crossMat v := by
  ext i j
  fin_cases i <;> fin_cases j <;>
    simp [crossMat, Matrix.transpose_apply]

/-- Block identity behind the calcP child update: for any skew block L, the
four block updates of the source equal adding the conjugation by the block
matrix `[[1, L], [0, 1]]` on the right-transposed side `[[1, 0], [-L, 1]]`. -/
theorem fromBlocks_shift_conjugation (L : CDSMat33) (P N : CDSMat66) :
    Matrix.fromBlocks
      (P.toBlocks₁₁ + (N.toBlocks₁₁ + L * N.toBlocks₂₁ - N.toBlocks₁₂ * L
        - L * N.toBlocks₂₂ * L))
      (P.toBlocks₁₂ + (N.toBlocks₁₂ + L * N.toBlocks₂₂))
      (P.toBlocks₂₁ + (N.toBlocks₂₁ - N.toBlocks₂₂ * L))
      (P.toBlocks₂₂ + N.toBlocks₂₂) =
      P + Matrix.fromBlocks 1 L 0 1 * N * Matrix.fromBlocks 1 0 (-L) 1 := by
  have hNblocks : N = Matrix.fromBlocks N.toBlocks₁₁ N.toBlocks₁₂
      N.toBlocks₂₁ N.toBlocks₂₂ := (Matrix.fromBlocks_toBlocks N).symm
  have hPblocks : P = Matrix.fromBlocks P.toBlocks₁₁ P.toBlocks₁₂
      P.toBlocks₂₁ P.toBlocks₂₂ := (Matrix.fromBlocks_toBlocks P).symm
  conv_rhs => rw [hPblocks, hNblocks]
  rw [Matrix.fromBlocks_multiply, Matrix.fromBlocks_multiply,
    Matrix.fromBlocks_add]
  congr 1 <;> noncomm_ring

/-- One child update of calcP equals adding the spatial shift conjugation
`Φ(r)·(τ_child·P_child)·Φ(r)ᵀ` with `r = O_child_G − O_B_G`. -/
theorem calcPStep_eq_shift (OB_G : CDSVec3) (P : CDSMat66) (c : ChildP) :
    calcPStep OB_G P c =
      P + PhiMatrix (c.OB_G - OB_G) * (c.tau * c.P)
            * (PhiMatrix (c.OB_G - OB_G)).transpose := by
  have hPhiT : (PhiMatrix (c.OB_G - OB_G)).transpose =
      Matrix.fromBlocks 1 0 (-(crossMat (c.OB_G - OB_G))) 1 := by
    rw [PhiMatrix, Matrix.fromBlocks_transpose, Matrix.transpose_one,
      Matrix.transpose_zero, crossMat_transpose]
  rw [calcPStep, hPhiT, PhiMatrix,
    fromBlocks_shift_conjugation (crossMat (c.OB_G - OB_G)) P (c.tau * c.P)]

/-! Claim theorems. -/

/-- C3: the block-wise accumulation of calcP, with
`lt = skew(O_child_G − O_B_G)`, coincides child by child with the spatial
shift conjugation `Φ_child·(τ_child·P_child)·Φ_childᵀ`, so calcP produces
`P = M_k + Σ_children Φ_child·(τ_child·P_child)·Φ_childᵀ`. -/
theorem claim_C3_calcP_shift (OB_G : CDSVec3) (Mk : CDSMat66)
    (children : List ChildP) :
    (∀ (P : CDSMat66) (c : ChildP),
      calcPStep OB_G P c =
        P + PhiMatrix (c.OB_G - OB_G) * (c.tau * c.P)
              * (PhiMatrix (c.OB_G - OB_G)).transpose) ∧
    calcP OB_G Mk children = calcPSpecFormula OB_G Mk children := by
  refine ⟨calcPStep_eq_shift OB_G, ?_⟩
  rw [calcP, calcPSpecFormula, ← foldl_add_eq_add_sum]
  congr 1
  funext P c
  exact calcPStep_eq_shift OB_G P c

/-- C1: calcZ sets `z = P·a + b − f_spatial + Σ_children Φ_c·(z_c + G_c·ε_c)`
(the loop accumulation equals the spec's sum), then `ε = τ_int − H·z`,
`ν = DI·ε` and `Gε = G·ε`, where f_spatial is the applied spatial force. -/
theorem claim_C1_calcZ {dof : ℕ} (P : CDSMat66) (a b spatialForce : CDSVec6)
    (H : Matrix (Fin dof) Six ℚ) (DI : Matrix (Fin dof) (Fin dof) ℚ)
    (G : Matrix Six (Fin dof) ℚ) (forceInternal : Fin dof → ℚ)
    (children : List ChildZ) :
    calcZ P a b spatialForce H DI G forceInternal children =
      (zSpecFormula P a b spatialForce children,
       forceInternal - H.mulVec (zSpecFormula P a b spatialForce children),
       DI.mulVec (forceInternal - H.mulVec (zSpecFormula P a b spatialForce children)),
       G.mulVec (forceInternal - H.mulVec (zSpecFormula P a b spatialForce children))) := by
  have hz : (children.foldl (fun acc c => acc + c.phi.mulVec (c.z + c.Gepsilon))
      (P.mulVec a + b - spatialForce)) = zSpecFormula P a b spatialForce children := by
    rw [zSpecFormula, ← foldl_add_eq_add_sum]
  simp only [calcZ, hz]

/-- C2: calcAccel computes `α_p = Φᵀ·s_acc_parent`, `θ̈ = ν − Gᵀ·α_p` and
`s_acc = α_p + Hᵀ·θ̈ + a`; the ground node's s_acc is zero; and quaternion
ball joints compute `q̈ = ½·(Ṁ(q)·ω + M(q)·ω̇)`, where M(q)ᵀ is the source's
3x4 quaternion-rate matrix and Ṁ(q) = M(q̇) by linearity. -/
theorem claim_C2_calcAccel {dof : ℕ} (phi : CDSMat66) (sAccParent : CDSVec6)
    (nu : Fin dof → ℚ) (G : Matrix Six (Fin dof) ℚ)
    (H : Matrix (Fin dof) Six ℚ) (a : CDSVec6) :
    (calcAccel phi sAccParent nu G H a =
      (nu - G.transpose.mulVec (phi.transpose.mulVec sAccParent),
       phi.transpose.mulVec sAccParent
         + H.transpose.mulVec (nu - G.transpose.mulVec (phi.transpose.mulVec sAccParent))
         + a)) ∧
    groundSAcc = 0 ∧
    (∀ (q dq : Fin 4 → ℚ) (omega dOmega : Fin 3 → ℚ),
      calcBallAccel q dq omega dOmega =
        (1/2 : ℚ) • ((ballM34 dq).transpose.mulVec omega
                     + (ballM34 q).transpose.mulVec dOmega)) := by
  refine ⟨rfl, rfl, fun q dq omega dOmega => ?_⟩
  rw [calcBallAccel, ballM43_eq_transpose, ballM43_eq_transpose]

/-- C10: setPos zeroes the internal generalized-force accumulator, so a
sequence of calcInternalForce passes run after setPos accumulates exactly the
sum of `H·z` over the spatial forces supplied since that setPos, independent
of whatever the accumulator held before; moreover each pass's z is
`−f_spatial + Σ_children Φ_child·z_child`. -/
theorem claim_C10_setPos_resets_forceInternal {dof : ℕ}
    (prev : Fin dof → ℚ) (H : Matrix (Fin dof) Six ℚ)
    (calls : List (CDSVec6 × List ChildF)) :
    (calls.foldl (fun fI call => calcInternalForce H fI call.1 call.2)
        (setPosForceInternal prev) =
      (calls.map (fun call => H.mulVec (calcInternalForceZ call.1 call.2))).sum) ∧
    (∀ (spatialForce : CDSVec6) (children : List ChildF),
      calcInternalForceZ spatialForce children =
        -spatialForce + (children.map (fun c => c.phi.mulVec c.z)).sum) := by
  constructor
  · have h := foldl_add_eq_add_sum
      (fun call : CDSVec6 × List ChildF => H.mulVec (calcInternalForceZ call.1 call.2))
      calls (setPosForceInternal prev)
    simpa [calcInternalForce, setPosForceInternal] using h
  · intro spatialForce children
    rw [calcInternalForceZ, foldl_add_eq_add_sum]

/-- C4: calcD_G followed by the calcP tail: when `D = H·P·Hᵀ` is not
invertible a SingularConfiguration failure carrying the node's level and its
H matrix is raised; when D is invertible no error is raised, `DI = D⁻¹`,
`G = P·Hᵀ·DI`, `tau = I − G·H` and `ψᵀ = τᵀ·Φᵀ`. -/
theorem claim_C4_calcD_G {dof : ℕ} (level : ℕ) (phi : CDSMat66)
    (H : Matrix (Fin dof) Six ℚ) (P : CDSMat66) :
    (¬ IsUnit (orthoTransform P H).det →
      calcPTail level phi H P = .error ⟨level, H⟩) ∧
    (IsUnit (orthoTransform P H).det →
      calcPTail level phi H P =
        .ok ((orthoTransform P H)⁻¹,
             P * H.transpose * (orthoTransform P H)⁻¹,
             1 - P * H.transpose * (orthoTransform P H)⁻¹ * H,
             (1 - P * H.transpose * (orthoTransform P H)⁻¹ * H).transpose
               * phi.transpose)) := by
  constructor
  · intro hn
    have h0 : (orthoTransform P H).det = 0 := by
      by_contra h
      exact hn (isUnit_iff_ne_zero.mpr h)
    simp [calcPTail, calcD_G, h0]
  · intro hu
    have h0 : ¬ (orthoTransform P H).det = 0 := isUnit_iff_ne_zero.mp hu
    simp [calcPTail, calcD_G, h0, nonsingInverse_eq_inv]

/-- Witness for C4: with one dof, P the identity spatial inertia and H the
row selecting the first angular coordinate, D = [[1]] is invertible and the
tail succeeds with the stated values; with H the zero row, D = [[0]] is
singular and the failure carries level 2 and that H. -/
theorem claim_C4_calcD_G_witness :
    (calcPTail 2 (1 : CDSMat66) HJointC4 (1 : CDSMat66) =
      .ok ((orthoTransform (1 : CDSMat66) HJointC4)⁻¹,
           (1 : CDSMat66) * HJointC4.transpose * (orthoTransform (1 : CDSMat66) HJointC4)⁻¹,
           (1 : CDSMat66) - (1 : CDSMat66) * HJointC4.transpose
             * (orthoTransform (1 : CDSMat66) HJointC4)⁻¹ * HJointC4,
           ((1 : CDSMat66) - (1 : CDSMat66) * HJointC4.transpose
             * (orthoTransform (1 : CDSMat66) HJointC4)⁻¹ * HJointC4).transpose
             * (1 : CDSMat66).transpose)) ∧
    calcPTail 2 (1 : CDSMat66) (0 : Matrix (Fin 1) Six ℚ) (1 : CDSMat66) =
      .error ⟨2, 0⟩ := by
  constructor
  · refine (claim_C4_calcD_G 2 1 HJointC4 1).2 ?_
    have hD : orthoTransform (1 : CDSMat66) HJointC4 = 1 := by
      ext i j
      fin_cases i
      fin_cases j
      simp [orthoTransform, HJointC4, Matrix.mul_apply, Fintype.sum_sum_type,
        Fin.sum_univ_three, Matrix.one_apply]
    rw [hD, Matrix.det_one]
    exact isUnit_one
  · refine (claim_C4_calcD_G 2 1 0 1).1 ?_
    have hdet : (orthoTransform (1 : CDSMat66) (0 : Matrix (Fin 1) Six ℚ)).det = 0 := by
      simp [orthoTransform]
    rw [hdet]
    simp

/-- C5: enforceBallConstraints normalizes the quaternion slice and projects
the quaternion-derivative slice onto the tangent space: for every nonzero q
the rewritten slices satisfy `|q| = 1` (exactly, hence to within 1e-12) and
`q·q̇ = 0`; in particular q = (2,0,0,0), q̇ = (0.1,0.1,0.1,0.1) becomes
q = (1,0,0,0), q̇ = (0,0.1,0.1,0.1). -/
theorem claim_C5_enforceBallConstraints :
    (∀ (q dq : RVec4), q ≠ 0 →
      dot4 (enforceBallConstraints q dq).1 (enforceBallConstraints q dq).1 = 1 ∧
      norm4 (enforceBallConstraints q dq).1 = 1 ∧
      dot4 (enforceBallConstraints q dq).1 (enforceBallConstraints q dq).2 = 0) ∧
    (enforceBallConstraints ![2, 0, 0, 0] ![0.1, 0.1, 0.1, 0.1]).1 = ![1, 0, 0, 0] ∧
    (enforceBallConstraints ![2, 0, 0, 0] ![0.1, 0.1, 0.1, 0.1]).2 =
      ![0, 0.1, 0.1, 0.1] := by
  have general : ∀ (q dq : RVec4), q ≠ 0 →
      dot4 (enforceBallConstraints q dq).1 (enforceBallConstraints q dq).1 = 1 ∧
      norm4 (enforceBallConstraints q dq).1 = 1 ∧
      dot4 (enforceBallConstraints q dq).1 (enforceBallConstraints q dq).2 = 0 := by
    intro q dq h
    have hd : 0 < dot4 q q := dot4_pos_of_ne_zero q h
    have hnn : 0 < norm4 q := Real.sqrt_pos.mpr hd
    have hsq : norm4 q * norm4 q = dot4 q q := Real.mul_self_sqrt (dot4_nonneg q)
    have h1 : dot4 ((norm4 q)⁻¹ • q) ((norm4 q)⁻¹ • q) = 1 := by
      rw [dot4_smul_left, dot4_smul_right]
      field_simp
      exact hsq.symm
    refine ⟨h1, ?_, ?_⟩
    · show norm4 ((norm4 q)⁻¹ • q) = 1
      rw [norm4, h1, Real.sqrt_one]
    · show dot4 ((norm4 q)⁻¹ • q)
        (dq - dot4 ((norm4 q)⁻¹ • q) dq • ((norm4 q)⁻¹ • q)) = 0
      rw [dot4_sub_right, dot4_smul_right, h1, mul_one, sub_self]
  have hd : dot4 ![(2:ℝ), 0, 0, 0] ![2, 0, 0, 0] = 4 := by
    norm_num [dot4, Fin.sum_univ_four]
  have hn : norm4 ![(2:ℝ), 0, 0, 0] = 2 := by
    rw [norm4, hd, show (4:ℝ) = 2 ^ 2 by norm_num]
    exact Real.sqrt_sq (by norm_num)
  have hq : (enforceBallConstraints ![2, 0, 0, 0] ![0.1, 0.1, 0.1, 0.1]).1 =
      ![1, 0, 0, 0] := by
    show (norm4 ![2, 0, 0, 0])⁻¹ • ![(2:ℝ), 0, 0, 0] = ![1, 0, 0, 0]
    rw [hn]
    funext i
    fin_cases i <;> norm_num
  refine ⟨general, hq, ?_⟩
  show (![0.1, 0.1, 0.1, 0.1]
    - dot4 ((norm4 ![2, 0, 0, 0])⁻¹ • ![2, 0, 0, 0]) ![0.1, 0.1, 0.1, 0.1]
      • ((norm4 ![2, 0, 0, 0])⁻¹ • ![(2:ℝ), 0, 0, 0])) = ![0, 0.1, 0.1, 0.1]
  have hq' : (norm4 ![(2:ℝ), 0, 0, 0])⁻¹ • ![(2:ℝ), 0, 0, 0] = ![1, 0, 0, 0] := hq
  rw [hq']
  have hdot : dot4 ![(1:ℝ), 0, 0, 0] ![0.1, 0.1, 0.1, 0.1] = 0.1 := by
    norm_num [dot4, Fin.sum_univ_four]
  rw [hdot]
  funext i
  fin_cases i <;> norm_num

/-- Witness for C5, discharging the nonzero hypothesis at q = (2,0,0,0),
q̇ = (0.1,0.1,0.1,0.1). -/
theorem claim_C5_enforceBallConstraints_witness :
    dot4 (enforceBallConstraints ![2, 0, 0, 0] ![0.1, 0.1, 0.1, 0.1]).1
        (enforceBallConstraints ![2, 0, 0, 0] ![0.1, 0.1, 0.1, 0.1]).1 = 1 ∧
    norm4 (enforceBallConstraints ![2, 0, 0, 0] ![0.1, 0.1, 0.1, 0.1]).1 = 1 ∧
    dot4 (enforceBallConstraints ![2, 0, 0, 0] ![0.1, 0.1, 0.1, 0.1]).1
        (enforceBallConstraints ![2, 0, 0, 0] ![0.1, 0.1, 0.1, 0.1]).2 = 0 :=
  claim_C5_enforceBallConstraints.1 ![2, 0, 0, 0] ![0.1, 0.1, 0.1, 0.1] (by
    intro hcontra
    have h0 := congrFun hcontra 0
    norm_num at h0)

/-- C6: for a unit quaternion, setBallDerivs followed by the quaternion
branch of setBallVel round-trips any angular velocity, and the source's 3x4
matrix M(q) satisfies `M(q)·M(q)ᵀ = |q|²·I₃`. -/
theorem claim_C6_ball_vel_roundtrip :
    (∀ (q : Fin 4 → ℚ) (omega : Fin 3 → ℚ), normSq4 q = 1 →
      setBallVelOmega q (setBallDerivs q omega) = omega) ∧
    (∀ q : Fin 4 → ℚ, ballM34 q * (ballM34 q).transpose = normSq4 q • 1) := by
  have key : ∀ q : Fin 4 → ℚ, ballM34 q * (ballM34 q).transpose = normSq4 q • 1 := by
    intro q
    rw [← ballM43_eq_transpose]
    ext i j
    fin_cases i <;> fin_cases j <;>
      simp [ballM34, ballM43, Matrix.mul_apply, Fin.sum_univ_four, normSq4,
        Matrix.one_apply, Matrix.smul_apply] <;> ring
  refine ⟨fun q omega h => ?_, key⟩
  rw [setBallVelOmega, setBallDerivs, ballM43_eq_transpose,
    Matrix.mulVec_smul, Matrix.mulVec_mulVec, key, h, smul_smul]
  norm_num

/-- Witness for C6: the identity quaternion has unit norm and the velocity
mapping round-trips ω = (3, 5, 7) through it. -/
theorem claim_C6_ball_vel_roundtrip_witness :
    setBallVelOmega ![1, 0, 0, 0] (setBallDerivs ![1, 0, 0, 0] ![3, 5, 7]) =
      ![3, 5, 7] :=
  claim_C6_ball_vel_roundtrip.1 ![1, 0, 0, 0] ![3, 5, 7] (by
    simp [normSq4])

/-- C7 counterexample: with θ = (π/2, 0, 0) the Euler-mode calcR_PB does NOT
map ê_y to ê_x: the joint interprets θ in degrees and multiplies by DEG2RAD,
so the (0,1) entry is −sin(π²/360), which is negative, not 1. -/
theorem claim_C7_counterexample :
    ¬ (calcR_PB_euler ![Real.pi / 2, 0, 0]).mulVec ![0, 1, 0] = ![1, 0, 0] := by
  intro h
  have h0 := congrFun h 0
  simp [calcR_PB_euler, Matrix.mulVec, dotProduct, Fin.sum_univ_three] at h0
  have harg : 0 < Real.pi / 2 * DEG2RAD := by
    rw [DEG2RAD]
    positivity
  have harg2 : Real.pi / 2 * DEG2RAD < Real.pi := by
    rw [DEG2RAD]
    nlinarith [Real.pi_lt_d2, Real.pi_pos]
  have hpos : 0 < Real.sin (Real.pi / 2 * DEG2RAD) :=
    Real.sin_pos_of_pos_of_lt_pi harg harg2
  linarith [h0]

/-- C7 (amended): Euler-mode calcR_PB at θ = (0,0,0) is the identity; at
θ = (90, 0, 0) — ninety degrees, i.e. Φ = π/2 radians after the DEG2RAD
conversion — the produced R_PB maps ê_x to ê_y and ê_y to −ê_x. -/
theorem claim_C7_calcR_PB_euler :
    calcR_PB_euler ![0, 0, 0] = 1 ∧
    (calcR_PB_euler ![90, 0, 0]).mulVec ![0, 1, 0] = ![-1, 0, 0] ∧
    (calcR_PB_euler ![90, 0, 0]).mulVec ![1, 0, 0] = ![0, 1, 0] := by
  have h90 : (90 : ℝ) * DEG2RAD = Real.pi / 2 := by
    rw [DEG2RAD]; ring
  refine ⟨?_, ?_, ?_⟩
  · ext i j
    fin_cases i <;> fin_cases j <;>
      simp [calcR_PB_euler, Matrix.one_apply, Matrix.vecHead, Matrix.vecTail]
  · funext i
    fin_cases i <;>
      simp [calcR_PB_euler, Matrix.mulVec, dotProduct, Fin.sum_univ_three, h90]
  · funext i
    fin_cases i <;>
      simp [calcR_PB_euler, Matrix.mulVec, dotProduct, Fin.sum_univ_three, h90]

/-- C8: RigidBodyNode::create raises a precondition failure whenever
isReversed is true or the joint type is outside the supported set
{Ground, Torsion, UJoint, Orientation, Cartesian, FreeLine, Free}; for a
supported type with isReversed false it returns a node of the corresponding
joint family. -/
theorem claim_C8_create (t : JointType) (isReversed useEuler : Bool) :
    (isReversed = true →
      RigidBodyNode.create t isReversed useEuler = .error .reversedJoint) ∧
    (¬ supportedJoint t → isReversed = false →
      RigidBodyNode.create t isReversed useEuler = .error .unknownJointType) ∧
    (supportedJoint t → isReversed = false →
      RigidBodyNode.create t isReversed useEuler = jointFamily t useEuler) := by
  refine ⟨fun hrev => ?_, fun hunsup hrev => ?_, fun hsup hrev => ?_⟩
  · simp [RigidBodyNode.create, hrev]
  · subst hrev
    cases t <;> simp_all [RigidBodyNode.create, supportedJoint, jointFamily]
  · subst hrev
    cases t <;> simp_all [RigidBodyNode.create, supportedJoint, jointFamily]

/-- Witness for C8 at concrete inputs: a reversed Torsion joint fails, a
non-reversed Weld joint fails as unknown, and a non-reversed Free joint with
useEuler false builds the free-joint family node. -/
theorem claim_C8_create_witness :
    RigidBodyNode.create .TorsionJoint true false = .error .reversedJoint ∧
    RigidBodyNode.create .WeldJoint false false = .error .unknownJointType ∧
    RigidBodyNode.create .FreeJoint false false = .ok (.nodeTranslateRotate3 false) := by
  refine ⟨(claim_C8_create .TorsionJoint true false).1 rfl,
          (claim_C8_create .WeldJoint false false).2.1 (by decide) rfl,
          ?_⟩
  have h := (claim_C8_create .FreeJoint false false).2.2 (by decide) rfl
  simpa [jointFamily] using h

/-- C9: the complex gesdd wrappers were meant to allocate rwork of size 5·mn
when jobz == 'N' and 5·mn² + 7·mn otherwise and to forward the caller's jobz;
because the source writes the assignment `jobz = 'N'` instead of a
comparison, both wrappers always allocate 5·mn and always invoke LAPACK with
jobz = 'N'.  At jobz = 'A', m = n = 2 the code yields (10, 'N') where the
claimed behaviour requires (34, 'A'). -/
theorem claim_C9_gesdd_jobz_bug :
    gesddComplexFloat 'A' 2 2 = (10, 'N') ∧
    gesddComplexDouble 'A' 2 2 = (10, 'N') ∧
    gesddComplexIntended 'A' 2 2 = (34, 'A') ∧
    gesddComplexFloat 'A' 2 2 ≠ gesddComplexIntended 'A' 2 2 ∧
    (∀ jobz m n, gesddComplexFloat jobz m n = gesddComplexDouble jobz m n) := by
  refine ⟨by decide, by decide, by decide, by decide, fun jobz m n => rfl⟩

end Simbody
